import Mathlib

/-
Verification of the `status` command (`src/juju/status.go`): the status
aggregation engine that joins machine records, provider instances and
service records into one nested snapshot.

The Go functions are shallowly embedded: `map[string]interface{}` entries
become association lists built in insertion order; a Go `map` write is
`mapUpd` (overwrite semantics) and a read is `mapGet`; fallible calls to
the external collaborators (store, provider, heartbeat subsystem) are
`Except String` values carried inside the records, so a call site that in
Go returns `(v, err)` here pattern-matches the stored result.
-/

namespace JujuStatus

/-- A value stored in a status entry. The source stores only strings and
booleans in its `map[string]interface{}` entries. -/
inductive Value where
  | str (s : String)
  | bool (b : Bool)
deriving DecidableEq, Repr

/-- One status entry (`map[string]interface{}`), as an association list in
insertion order. All keys written by the source are distinct per entry. -/
abbrev Entry := List (String × Value)

/-- Go map read: first binding for the key, if any. -/
def mapGet {α β : Type} [DecidableEq α] : List (α × β) → α → Option β
  | [], _ => none
  | p :: rest, k => if p.1 = k then some p.2 else mapGet rest k

/-- Go map write: overwrite any existing binding for the key. -/
def mapUpd {α β : Type} [DecidableEq α] : List (α × β) → α → β → List (α × β)
  | [], k, v => [(k, v)]
  | p :: rest, k, v => if p.1 = k then mapUpd rest k v else p :: mapUpd rest k v

/-- Result of `m.InstanceId()`: the source distinguishes the typed
`*state.NotFoundError` (machine not yet provisioned) from other store
errors. -/
inductive InstanceIdResult where
  | notFound
  | found (id : String)
  | fail (e : String)
deriving DecidableEq, Repr

/-- A machine record as exposed by the orchestration store
(`state.Machine`). `explicitStatus` (keyword and info text, set by
`SetStatus`) and `tools` (dotted agent version, set by `SetAgentTools`)
are store attributes exercised by the test suite; `status.go` never reads
them. -/
structure Machine where
  id : Nat
  instanceId : InstanceIdResult
  agentAlive : Except String Bool
  explicitStatus : Option (String × String)
  tools : Option String
deriving Repr

/-- A provider instance (`environs.Instance`): opaque id and a DNS-name
resolution that may itself fail. -/
structure Instance where
  id : String
  dnsName : Except String String
deriving Repr

/-- A charm descriptor: its metadata name (`ch.Meta().Name`) and its
identity URL string (e.g. `local:series/dummy-1`). -/
structure Charm where
  metaName : String
  url : String
deriving Repr

/-- A service record (`state.Service`). `units` lists the service's unit
names; `status.go` never reads them. -/
structure Service where
  name : String
  charm : Except String Charm
  isExposed : Except String Bool
  units : List String
deriving Repr

/-- The external collaborators a run talks to, with the outcome each call
would report: `juju.NewConn`, `environs.Environ.AllInstances`,
`conn.State`, `state.AllMachines`, `state.AllServices`. -/
structure Env where
  conn : Except String Unit
  allInstances : Except String (List Instance)
  state : Except String Unit
  allMachines : Except String (List Machine)
  allServices : Except String (List Service)

/-- The snapshot before key normalization: `result["machines"]` keyed by
integer machine id, `result["services"]` keyed by service name. -/
structure Result where
  machines : List (Nat × Entry)
  services : List (String × Entry)
deriving Repr

/-- index part of `fetchAllInstances`: `m[i.Id()] = i` over all instances. -/
def buildInstanceIndex (insts : List Instance) : List (String × Instance) :=
  insts.foldl (fun m i => mapUpd m i.id i) []

/-- `fetchAllInstances`: propagate the provider's list failure, else index
instances by id. -/
def fetchAllInstances (res : Except String (List Instance)) :
    Except String (List (String × Instance)) :=
  match res with
  | .error e => .error e
  | .ok insts => .ok (buildInstanceIndex insts)

/-- index part of `fetchAllMachines`: `v[m.Id()] = m` over all machines. -/
def buildMachineIndex (machines : List Machine) : List (Nat × Machine) :=
  machines.foldl (fun v m => mapUpd v m.id m) []

/-- `fetchAllMachines`: propagate the store's list failure, else index
machines by id. -/
def fetchAllMachines (res : Except String (List Machine)) :
    Except String (List (Nat × Machine)) :=
  match res with
  | .error e => .error e
  | .ok machines => .ok (buildMachineIndex machines)

/-- index part of `fetchAllServices`: `v[s.Name()] = s` over all services. -/
def buildServiceIndex (services : List Service) : List (String × Service) :=
  services.foldl (fun v s => mapUpd v s.name s) []

/-- `fetchAllServices`: propagate the store's list failure, else index
services by name. -/
def fetchAllServices (res : Except String (List Service)) :
    Except String (List (String × Service)) :=
  match res with
  | .error e => .error e
  | .ok services => .ok (buildServiceIndex services)

/-- `processMachine`: record `dns-name` and `instance-id`, then query
heartbeat liveness; when alive add `agent-state = "running"`. DNS or
liveness failure is fatal. -/
def processMachine (machine : Machine) (inst : Instance) : Except String Entry :=
  match inst.dnsName with
  | .error e => .error e
  | .ok dnsname =>
    let r : Entry := [("dns-name", Value.str dnsname), ("instance-id", Value.str inst.id)]
    match machine.agentAlive with
    | .error e => .error e
    | .ok alive =>
      if alive then .ok (r ++ [("agent-state", Value.str "running")]) else .ok r

/-- The inconsistency error of `processMachines`:
`fmt.Errorf("instance %s for machine %d not found", instid, m.Id())`. -/
def instNotFoundMsg (instid : String) (mid : Nat) : String :=
  "instance " ++ instid ++ " for machine " ++ Nat.repr mid ++ " not found"

/-- Loop body of `processMachines`, accumulating the Go result map `r`. -/
def processMachinesAux (instances : List (String × Instance)) :
    List (Nat × Machine) → List (Nat × Entry) → Except String (List (Nat × Entry))
  | [], r => .ok r
  | (_, m) :: rest, r =>
    match m.instanceId with
    | .notFound =>
      processMachinesAux instances rest (mapUpd r m.id [("instance-id", Value.str "pending")])
    | .fail e => .error e
    | .found instid =>
      match mapGet instances instid with
      | none => .error (instNotFoundMsg instid m.id)
      | some inst =>
        match processMachine m inst with
        | .error e => .error e
        | .ok entry => processMachinesAux instances rest (mapUpd r m.id entry)

/-- `processMachines`: resolve every machine of the index against the
instance index. -/
def processMachines (machines : List (Nat × Machine)) (instances : List (String × Instance)) :
    Except String (List (Nat × Entry)) :=
  processMachinesAux instances machines []

/-- `processService`: record the charm's metadata name under `charm` and
the exposure flag under `exposed`; either resolution failure is fatal. -/
def processService (service : Service) : Except String Entry :=
  match service.charm with
  | .error e => .error e
  | .ok ch =>
    match service.isExposed with
    | .error e => .error e
    | .ok exposed => .ok [("charm", Value.str ch.metaName), ("exposed", Value.bool exposed)]

/-- Loop body of `processServices`. -/
def processServicesAux :
    List (String × Service) → List (String × Entry) → Except String (List (String × Entry))
  | [], r => .ok r
  | (_, s) :: rest, r =>
    match processService s with
    | .error e => .error e
    | .ok entry => processServicesAux rest (mapUpd r s.name entry)

/-- `processServices`: resolve every service of the index. -/
def processServices (services : List (String × Service)) :
    Except String (List (String × Entry)) :=
  processServicesAux services []

/-- `StatusCommand.Run` up to output formatting: connect, fetch the three
collections, resolve machines and services, merge. Any failure aborts with
that error and no snapshot. -/
def run (env : Env) : Except String Result :=
  match env.conn with
  | .error e => .error e
  | .ok () =>
  match fetchAllInstances env.allInstances with
  | .error e => .error e
  | .ok instances =>
  match env.state with
  | .error e => .error e
  | .ok () =>
  match fetchAllMachines env.allMachines with
  | .error e => .error e
  | .ok machines =>
  match fetchAllServices env.allServices with
  | .error e => .error e
  | .ok services =>
  match processMachines machines instances with
  | .error e => .error e
  | .ok ms =>
  match processServices services with
  | .error e => .error e
  | .ok ss => .ok { machines := ms, services := ss }

/-- The string-keyed snapshot produced for the JSON formatter. -/
structure JsonResult where
  machines : List (String × Entry)
  services : List (String × Entry)
deriving Repr

/-- `jsonify`: copy `services` unchanged and re-key `machines` by
`strconv.Itoa` (decimal string form) of each integer id. -/
def jsonify (r : Result) : JsonResult :=
  { services := r.services
    machines := r.machines.foldl (fun m p => mapUpd m (Nat.repr p.1) p.2) [] }

/-- Modelled from the spec: decoding a string machine key of the
string-keyed representation back to the integer id it came from (the
inverse reading of the decimal conversion in `jsonify`; the source
contains no decoder). -/
def decodeDecimal (s : String) : Option Nat :=
  if s.data ≠ [] ∧ s.data.all Char.isDigit then
    some (s.data.foldl (fun n c => n * 10 + (c.toNat - 48)) 0)
  else none

/-- Fixture: an unprovisioned machine, as after the test suite's
addMachine step. -/
def pendingMachine : Machine where
  id := 0
  instanceId := .notFound
  agentAlive := Except.ok true
  explicitStatus := none
  tools := none

/-- Fixture: a machine recorded against an instance id the provider does
not know. -/
def ghostMachine : Machine where
  id := 0
  instanceId := .found "i-gone"
  agentAlive := Except.ok true
  explicitStatus := none
  tools := none

/-- Fixture: collaborators that all succeed, with the given machine
listing and nothing else. -/
def envWith (ml : List Machine) : Env where
  conn := Except.ok ()
  allInstances := Except.ok []
  state := Except.ok ()
  allMachines := Except.ok ml
  allServices := Except.ok []

/-- Fixture: the connection attempt fails. -/
def envConnFail : Env where
  conn := Except.error "no conn"
  allInstances := Except.ok []
  state := Except.ok ()
  allMachines := Except.ok []
  allServices := Except.ok []

/-- Fixture: the provider's instance listing fails. -/
def envProviderFail : Env where
  conn := Except.ok ()
  allInstances := Except.error "provider down"
  state := Except.ok ()
  allMachines := Except.ok []
  allServices := Except.ok []

/-! ### Association-map lemmas -/

theorem mapGet_mapUpd_self {α β : Type} [DecidableEq α] (m : List (α × β)) (k : α) (v : β) :
    mapGet (mapUpd m k v) k = some v := by
  induction m with
  | nil => simp [mapUpd, mapGet]
  | cons p rest ih =>
    by_cases h : p.1 = k
    · simpa [mapUpd, h] using ih
    · simpa [mapUpd, mapGet, h] using ih

theorem mapGet_mapUpd_ne {α β : Type} [DecidableEq α] (m : List (α × β)) (k k' : α) (v : β)
    (h : k' ≠ k) : mapGet (mapUpd m k v) k' = mapGet m k' := by
  induction m with
  | nil => simp [mapUpd, mapGet, Ne.symm h]
  | cons p rest ih =>
    by_cases hp : p.1 = k
    · have h1 : mapUpd (p :: rest) k v = mapUpd rest k v := by simp [mapUpd, hp]
      have h2 : mapGet (p :: rest) k' = mapGet rest k' := by
        have hne : ¬p.1 = k' := by rw [hp]; exact Ne.symm h
        simp [mapGet, hne]
      rw [h1, ih, h2]
    · have h1 : mapUpd (p :: rest) k v = p :: mapUpd rest k v := by simp [mapUpd, hp]
      by_cases hk' : p.1 = k'
      · rw [h1]; simp [mapGet, hk']
      · rw [h1]; simp [mapGet, hk', ih]

theorem mapUpd_of_fresh {α β : Type} [DecidableEq α] (m : List (α × β)) (k : α) (v : β)
    (h : ∀ p ∈ m, p.1 ≠ k) : mapUpd m k v = m ++ [(k, v)] := by
  induction m with
  | nil => simp [mapUpd]
  | cons p rest ih =>
    have hp : p.1 ≠ k := h p (List.mem_cons_self p rest)
    simp only [mapUpd, if_neg hp, List.cons_append, List.cons.injEq, true_and]
    exact ih fun q hq => h q (List.mem_cons_of_mem p hq)

theorem keys_mapUpd {α β : Type} [DecidableEq α] (m : List (α × β)) (k k' : α) (v : β) :
    k' ∈ (mapUpd m k v).map Prod.fst ↔ k' = k ∨ k' ∈ m.map Prod.fst := by
  induction m with
  | nil => simp [mapUpd]
  | cons p rest ih =>
    by_cases hp : p.1 = k
    · simp only [mapUpd, if_pos hp, ih, List.map_cons, List.mem_cons]
      constructor
      · tauto
      · rintro (h | h | h) <;> simp_all
    · simp only [mapUpd, if_neg hp, List.map_cons, List.mem_cons, ih]
      tauto

theorem nodup_keys_mapUpd {α β : Type} [DecidableEq α] (m : List (α × β)) (k : α) (v : β)
    (h : (m.map Prod.fst).Nodup) : ((mapUpd m k v).map Prod.fst).Nodup := by
  induction m with
  | nil => simp [mapUpd]
  | cons p rest ih =>
    simp only [List.map_cons, List.nodup_cons] at h
    by_cases hp : p.1 = k
    · simpa [mapUpd, hp] using ih h.2
    · simp only [mapUpd, if_neg hp, List.map_cons, List.nodup_cons]
      refine ⟨fun hmem => ?_, ih h.2⟩
      rcases (keys_mapUpd rest k p.1 v).mp hmem with h' | h'
      · exact hp h'
      · exact h.1 h'

/-- A fold of overwrite-inserts over pairwise-distinct keys is a plain
append of the keyed pairs. -/
theorem foldl_mapUpd_eq_append {α β γ : Type} [DecidableEq α]
    (key : γ → α) (val : γ → β) :
    ∀ (l : List γ) (acc : List (α × β)),
      (l.map key).Nodup → (∀ x ∈ l, ∀ p ∈ acc, p.1 ≠ key x) →
      l.foldl (fun m x => mapUpd m (key x) (val x)) acc =
        acc ++ l.map (fun x => (key x, val x))
  | [], acc, _, _ => by simp
  | x :: xs, acc, hn, hd => by
    simp only [List.map_cons, List.nodup_cons] at hn
    have hfresh : ∀ p ∈ acc, p.1 ≠ key x :=
      fun p hp => hd x (List.mem_cons_self x xs) p hp
    have step : mapUpd acc (key x) (val x) = acc ++ [(key x, val x)] :=
      mapUpd_of_fresh acc (key x) (val x) hfresh
    have hd' : ∀ y ∈ xs, ∀ p ∈ acc ++ [(key x, val x)], p.1 ≠ key y := by
      intro y hy p hp
      rcases List.mem_append.mp hp with hp | hp
      · exact hd y (List.mem_cons_of_mem x hy) p hp
      · simp only [List.mem_singleton] at hp
        subst hp
        intro hk
        refine hn.1 ?_
        rw [show key x = key y from hk]
        exact List.mem_map_of_mem key hy
    calc (x :: xs).foldl (fun m y => mapUpd m (key y) (val y)) acc
        = xs.foldl (fun m y => mapUpd m (key y) (val y)) (acc ++ [(key x, val x)]) := by
          simp [step]
      _ = (acc ++ [(key x, val x)]) ++ xs.map (fun y => (key y, val y)) :=
          foldl_mapUpd_eq_append key val xs (acc ++ [(key x, val x)]) hn.2 hd'
      _ = acc ++ (x :: xs).map (fun y => (key y, val y)) := by simp

/-- With store-unique machine ids, the machine index is the listing keyed
by id, in listing order. -/
theorem buildMachineIndex_eq (ml : List Machine) (h : (ml.map Machine.id).Nodup) :
    buildMachineIndex ml = ml.map (fun m => (m.id, m)) := by
  simpa using foldl_mapUpd_eq_append Machine.id (fun m => m) ml [] h (by simp)

/-! ### Lemmas about the machine-processing loop -/

/-- A successful pass over machines whose ids all differ from `k` leaves
the binding at `k` untouched. -/
theorem processMachinesAux_get_stable (instances : List (String × Instance)) :
    ∀ (ms : List (Nat × Machine)) (r out : List (Nat × Entry)) (k : Nat),
      processMachinesAux instances ms r = Except.ok out →
      (∀ p ∈ ms, p.2.id ≠ k) → mapGet out k = mapGet r k
  | [], r, out, k, h, _ => by
    simp only [processMachinesAux, Except.ok.injEq] at h
    rw [← h]
  | (i, m) :: rest, r, out, k, h, hne => by
    have hm : m.id ≠ k := hne (i, m) (List.mem_cons_self _ _)
    have hrest : ∀ p ∈ rest, p.2.id ≠ k := fun p hp => hne p (List.mem_cons_of_mem _ hp)
    cases hii : m.instanceId with
    | notFound =>
      simp only [processMachinesAux, hii] at h
      rw [processMachinesAux_get_stable instances rest _ out k h hrest,
        mapGet_mapUpd_ne r m.id k _ (Ne.symm hm)]
    | fail e => simp [processMachinesAux, hii] at h
    | found instid =>
      cases hgi : mapGet instances instid with
      | none => simp [processMachinesAux, hii, hgi] at h
      | some inst =>
        cases hpm : processMachine m inst with
        | error e => simp [processMachinesAux, hii, hgi, hpm] at h
        | ok entry =>
          simp only [processMachinesAux, hii, hgi, hpm] at h
          rw [processMachinesAux_get_stable instances rest _ out k h hrest,
            mapGet_mapUpd_ne r m.id k _ (Ne.symm hm)]

/-- In a successful pass, a machine whose instance-id read signalled
"not found" ends up bound to exactly the single-key pending entry. -/
theorem processMachinesAux_pending (instances : List (String × Instance)) :
    ∀ (ms : List (Nat × Machine)) (r out : List (Nat × Entry)) (mid : Nat) (m : Machine),
      (mid, m) ∈ ms → m.instanceId = .notFound →
      (ms.map (fun p => p.2.id)).Nodup →
      processMachinesAux instances ms r = Except.ok out →
      mapGet out m.id = some [("instance-id", Value.str "pending")]
  | [], _, _, _, _, hmem, _, _, _ => absurd hmem (List.not_mem_nil _)
  | (i, m') :: rest, r, out, mid, m, hmem, hnf, hnodup, h => by
    simp only [List.map_cons, List.nodup_cons] at hnodup
    rcases List.mem_cons.mp hmem with heq | hmem'
    · injection heq with h1 h2
      subst h2
      simp only [processMachinesAux, hnf] at h
      have hfresh : ∀ p ∈ rest, p.2.id ≠ m.id := by
        intro p hp hk
        exact hnodup.1 (hk ▸ List.mem_map_of_mem (fun q => q.2.id) hp)
      rw [processMachinesAux_get_stable instances rest _ out m.id h hfresh,
        mapGet_mapUpd_self]
    · cases hii : m'.instanceId with
      | notFound =>
        simp only [processMachinesAux, hii] at h
        exact processMachinesAux_pending instances rest _ out mid m hmem' hnf hnodup.2 h
      | fail e => simp [processMachinesAux, hii] at h
      | found instid =>
        cases hgi : mapGet instances instid with
        | none => simp [processMachinesAux, hii, hgi] at h
        | some inst =>
          cases hpm : processMachine m' inst with
          | error e => simp [processMachinesAux, hii, hgi, hpm] at h
          | ok entry =>
            simp only [processMachinesAux, hii, hgi, hpm] at h
            exact processMachinesAux_pending instances rest _ out mid m hmem' hnf hnodup.2 h

/-- The loop aborts whenever some machine's recorded instance id is not in
the instance index. -/
theorem processMachinesAux_error_of_absent (instances : List (String × Instance)) :
    ∀ (ms : List (Nat × Machine)) (r : List (Nat × Entry)) (mid : Nat) (m : Machine)
      (instid : String),
      (mid, m) ∈ ms → m.instanceId = .found instid → mapGet instances instid = none →
      ∃ e, processMachinesAux instances ms r = Except.error e
  | [], _, _, _, _, hmem, _, _ => absurd hmem (List.not_mem_nil _)
  | (i, m') :: rest, r, mid, m, instid, hmem, hfound, habsent => by
    rcases List.mem_cons.mp hmem with heq | hmem'
    · injection heq with h1 h2
      subst h2
      exact ⟨instNotFoundMsg instid m.id, by
        simp [processMachinesAux, hfound, habsent]⟩
    · cases hii : m'.instanceId with
      | notFound =>
        obtain ⟨e, he⟩ :=
          processMachinesAux_error_of_absent instances rest
            (mapUpd r m'.id [("instance-id", Value.str "pending")]) mid m instid
            hmem' hfound habsent
        exact ⟨e, by simp only [processMachinesAux, hii]; exact he⟩
      | fail e => exact ⟨e, by simp [processMachinesAux, hii]⟩
      | found instid' =>
        cases hgi : mapGet instances instid' with
        | none => exact ⟨instNotFoundMsg instid' m'.id, by simp [processMachinesAux, hii, hgi]⟩
        | some inst =>
          cases hpm : processMachine m' inst with
          | error e => exact ⟨e, by simp [processMachinesAux, hii, hgi, hpm]⟩
          | ok entry =>
            obtain ⟨e, he⟩ :=
              processMachinesAux_error_of_absent instances rest (mapUpd r m'.id entry)
                mid m instid hmem' hfound habsent
            exact ⟨e, by simp only [processMachinesAux, hii, hgi, hpm]; exact he⟩

/-- A successful pass binds exactly the accumulator's keys plus one key
per processed machine id. -/
theorem processMachinesAux_isSome_iff (instances : List (String × Instance)) :
    ∀ (ms : List (Nat × Machine)) (r out : List (Nat × Entry)),
      processMachinesAux instances ms r = Except.ok out →
      ∀ k, (mapGet out k).isSome ↔
        ((mapGet r k).isSome ∨ k ∈ ms.map (fun p => p.2.id))
  | [], r, out, h, k => by
    simp only [processMachinesAux, Except.ok.injEq] at h
    rw [← h]; simp
  | (i, m) :: rest, r, out, h, k => by
    have step : ∀ entry,
        (mapGet (mapUpd r m.id entry) k).isSome ↔ ((mapGet r k).isSome ∨ k = m.id) := by
      intro entry
      by_cases hk : k = m.id
      · subst hk; simp [mapGet_mapUpd_self]
      · simp [mapGet_mapUpd_ne r m.id k _ hk, hk]
    cases hii : m.instanceId with
    | notFound =>
      simp only [processMachinesAux, hii] at h
      rw [processMachinesAux_isSome_iff instances rest _ out h k, step]
      simp only [List.map_cons, List.mem_cons]
      tauto
    | fail e => simp [processMachinesAux, hii] at h
    | found instid =>
      cases hgi : mapGet instances instid with
      | none => simp [processMachinesAux, hii, hgi] at h
      | some inst =>
        cases hpm : processMachine m inst with
        | error e => simp [processMachinesAux, hii, hgi, hpm] at h
        | ok entry =>
          simp only [processMachinesAux, hii, hgi, hpm] at h
          rw [processMachinesAux_isSome_iff instances rest _ out h k, step]
          simp only [List.map_cons, List.mem_cons]
          tauto

/-- A successful pass preserves distinctness of the result keys. -/
theorem processMachinesAux_nodup_keys (instances : List (String × Instance)) :
    ∀ (ms : List (Nat × Machine)) (r out : List (Nat × Entry)),
      (r.map Prod.fst).Nodup → processMachinesAux instances ms r = Except.ok out →
      (out.map Prod.fst).Nodup
  | [], r, out, hr, h => by
    simp only [processMachinesAux, Except.ok.injEq] at h
    rw [← h]; exact hr
  | (i, m) :: rest, r, out, hr, h => by
    cases hii : m.instanceId with
    | notFound =>
      simp only [processMachinesAux, hii] at h
      exact processMachinesAux_nodup_keys instances rest _ out
        (nodup_keys_mapUpd r m.id _ hr) h
    | fail e => simp [processMachinesAux, hii] at h
    | found instid =>
      cases hgi : mapGet instances instid with
      | none => simp [processMachinesAux, hii, hgi] at h
      | some inst =>
        cases hpm : processMachine m inst with
        | error e => simp [processMachinesAux, hii, hgi, hpm] at h
        | ok entry =>
          simp only [processMachinesAux, hii, hgi, hpm] at h
          exact processMachinesAux_nodup_keys instances rest _ out
            (nodup_keys_mapUpd r m.id _ hr) h

/-- A successful run means every stage succeeded, and the snapshot is the
two processed mappings. -/
theorem run_ok_elim (env : Env) (out : Result) (h : run env = Except.ok out) :
    env.conn = Except.ok () ∧ env.state = Except.ok () ∧
    ∃ il ml sl, env.allInstances = Except.ok il ∧ env.allMachines = Except.ok ml ∧
      env.allServices = Except.ok sl ∧
      processMachines (buildMachineIndex ml) (buildInstanceIndex il) =
        Except.ok out.machines ∧
      processServices (buildServiceIndex sl) = Except.ok out.services := by
  cases hc : env.conn with
  | error e => simp [run, hc] at h
  | ok u =>
    cases u
    cases hi : env.allInstances with
    | error e => simp [run, hc, fetchAllInstances, hi] at h
    | ok il =>
      cases hs : env.state with
      | error e => simp [run, hc, fetchAllInstances, hi, hs] at h
      | ok v =>
        cases v
        cases hm : env.allMachines with
        | error e => simp [run, hc, fetchAllInstances, hi, hs, fetchAllMachines, hm] at h
        | ok ml =>
          cases hsv : env.allServices with
          | error e =>
            simp [run, hc, fetchAllInstances, hi, hs, fetchAllMachines, hm,
              fetchAllServices, hsv] at h
          | ok sl =>
            simp only [run, hc, fetchAllInstances, hi, hs, fetchAllMachines, hm,
              fetchAllServices, hsv] at h
            cases hpm : processMachines (buildMachineIndex ml) (buildInstanceIndex il) with
            | error e => rw [hpm] at h; simp at h
            | ok ms =>
              rw [hpm] at h
              cases hps : processServices (buildServiceIndex sl) with
              | error e => rw [hps] at h; simp at h
              | ok ss =>
                rw [hps] at h
                simp only [Except.ok.injEq] at h
                refine ⟨rfl, rfl, il, ml, sl, rfl, rfl, rfl, ?_, ?_⟩
                · rw [hpm, ← h]
                · rw [hps, ← h]

/-! ### Claim theorems -/

/-- C1 counterexample: a machine with a resolved backing instance, alive
heartbeat and no explicitly reported status gets agent-state "running",
not the keyword "started" that the claim demands. -/
theorem C1_counterexample :
    processMachine
        { id := 0, instanceId := .found "dummyenv-0", agentAlive := Except.ok true,
          explicitStatus := none, tools := none }
        { id := "dummyenv-0", dnsName := Except.ok "dummyenv-0.dns" } =
      Except.ok [("dns-name", Value.str "dummyenv-0.dns"),
        ("instance-id", Value.str "dummyenv-0"),
        ("agent-state", Value.str "running")] ∧
    mapGet [("dns-name", Value.str "dummyenv-0.dns"),
        ("instance-id", Value.str "dummyenv-0"),
        ("agent-state", Value.str "running")] "agent-state" ≠
      some (Value.str "started") :=
  ⟨rfl, by decide⟩

/-- C1 (amended): for every machine whose backing instance is resolved and
whose heartbeat reports alive, when no explicit status has ever been
reported, the status entry's agent-state equals the keyword "running". -/
theorem C1_agent_state_running (m : Machine) (inst : Instance) (dns : String)
    (hdns : inst.dnsName = Except.ok dns) (halive : m.agentAlive = Except.ok true)
    (_hstatus : m.explicitStatus = none) :
    processMachine m inst =
      Except.ok [("dns-name", Value.str dns), ("instance-id", Value.str inst.id),
        ("agent-state", Value.str "running")] := by
  simp [processMachine, hdns, halive]

/-- Witness for C1 (amended) at the machine-0 scenario of the test suite. -/
theorem C1_agent_state_running_witness :
    processMachine
        { id := 0, instanceId := .found "dummyenv-0", agentAlive := Except.ok true,
          explicitStatus := none, tools := none }
        { id := "dummyenv-0", dnsName := Except.ok "dummyenv-0.dns" } =
      Except.ok [("dns-name", Value.str "dummyenv-0.dns"),
        ("instance-id", Value.str "dummyenv-0"),
        ("agent-state", Value.str "running")] :=
  C1_agent_state_running _ _ _ rfl rfl rfl

/-- C2: on the machine-3 scenario of the test suite (heartbeat not alive,
explicit status "stopped" with info "Really?") the code emits neither
agent-state "down" nor any agent-state-info diagnostic, contradicting the
claim and the repository's own expected output. -/
theorem C2_no_down_diagnosis :
    processMachine
        { id := 3, instanceId := .found "dummyenv-3", agentAlive := Except.ok false,
          explicitStatus := some ("stopped", "Really?"), tools := none }
        { id := "dummyenv-3", dnsName := Except.ok "dummyenv-3.dns" } =
      Except.ok [("dns-name", Value.str "dummyenv-3.dns"),
        ("instance-id", Value.str "dummyenv-3")] ∧
    mapGet [("dns-name", Value.str "dummyenv-3.dns"),
        ("instance-id", Value.str "dummyenv-3")] "agent-state" = none ∧
    mapGet [("dns-name", Value.str "dummyenv-3.dns"),
        ("instance-id", Value.str "dummyenv-3")] "agent-state-info" = none :=
  ⟨rfl, by decide, by decide⟩

/-- C5: the service resolver never emits a units key, even for a service
with one unit, contradicting the claim and the repository's own expected
output for dummy-service. -/
theorem C5_units_never_emitted :
    processService
        { name := "dummy-service",
          charm := Except.ok { metaName := "dummy", url := "local:series/dummy-1" },
          isExposed := Except.ok false, units := ["dummy-service/0"] } =
      Except.ok [("charm", Value.str "dummy"), ("exposed", Value.bool false)] ∧
    mapGet [("charm", Value.str "dummy"), ("exposed", Value.bool false)] "units" = none :=
  ⟨rfl, by decide⟩

/-- C6: the service resolver records the charm's metadata name under
charm, not the charm's identity URL string, contradicting the claim and
the repository's own expected output ("local:series/dummy-1"). -/
theorem C6_charm_records_meta_name :
    processService
        { name := "dummy-service",
          charm := Except.ok { metaName := "dummy", url := "local:series/dummy-1" },
          isExposed := Except.ok false, units := [] } =
      Except.ok [("charm", Value.str "dummy"), ("exposed", Value.bool false)] ∧
    mapGet [("charm", Value.str "dummy"), ("exposed", Value.bool false)] "charm" =
      some (Value.str "dummy") ∧
    Value.str "dummy" ≠ Value.str "local:series/dummy-1" :=
  ⟨rfl, by decide, by decide⟩

/-- C9: no machine status entry ever contains an agent-version key — in
particular not for a machine with recorded tool version "1.2.3" —
contradicting the claim and the repository's own expected output. -/
theorem C9_agent_version_never_emitted :
    (∀ (m : Machine) (inst : Instance) (e : Entry),
      processMachine m inst = Except.ok e → mapGet e "agent-version" = none) ∧
    processMachine
        { id := 0, instanceId := .found "dummyenv-0", agentAlive := Except.ok true,
          explicitStatus := some ("started", ""), tools := some "1.2.3" }
        { id := "dummyenv-0", dnsName := Except.ok "dummyenv-0.dns" } =
      Except.ok [("dns-name", Value.str "dummyenv-0.dns"),
        ("instance-id", Value.str "dummyenv-0"),
        ("agent-state", Value.str "running")] := by
  constructor
  · intro m inst e he
    cases hdns : inst.dnsName with
    | error e' => simp [processMachine, hdns] at he
    | ok dns =>
      cases hal : m.agentAlive with
      | error e' => simp [processMachine, hdns, hal] at he
      | ok alive =>
        cases alive with
        | false =>
          have hval : processMachine m inst =
              Except.ok [("dns-name", Value.str dns), ("instance-id", Value.str inst.id)] := by
            simp [processMachine, hdns, hal]
          rw [hval] at he
          injection he with he'
          rw [← he']
          simp [mapGet]
        | true =>
          have hval : processMachine m inst =
              Except.ok [("dns-name", Value.str dns), ("instance-id", Value.str inst.id),
                ("agent-state", Value.str "running")] := by
            simp [processMachine, hdns, hal]
          rw [hval] at he
          injection he with he'
          rw [← he']
          simp [mapGet]
  · rfl

/-- Witness for C9's universally quantified part, at the same machine. -/
theorem C9_agent_version_never_emitted_witness :
    mapGet [("dns-name", Value.str "dummyenv-0.dns"),
        ("instance-id", Value.str "dummyenv-0"),
        ("agent-state", Value.str "running")] "agent-version" = none :=
  C9_agent_version_never_emitted.1
    { id := 0, instanceId := .found "dummyenv-0", agentAlive := Except.ok true,
      explicitStatus := some ("started", ""), tools := some "1.2.3" }
    { id := "dummyenv-0", dnsName := Except.ok "dummyenv-0.dns" }
    _ C9_agent_version_never_emitted.2

/-- C3: a machine whose recorded instance id is absent from the provider's
instance index makes the whole run fail — no snapshot is produced — and
the inconsistency error names both the machine id and the instance id. -/
theorem C3_inconsistency_fatal (env : Env) (il : List Instance) (ml : List Machine)
    (m : Machine) (instid : String)
    (hinst : env.allInstances = Except.ok il) (hmach : env.allMachines = Except.ok ml)
    (hnodup : (ml.map Machine.id).Nodup) (hm : m ∈ ml)
    (hfound : m.instanceId = .found instid)
    (habsent : mapGet (buildInstanceIndex il) instid = none) :
    (∀ out, run env ≠ Except.ok out) ∧
    (∃ e, run env = Except.error e) ∧
    processMachines [(m.id, m)] (buildInstanceIndex il) =
      Except.error (instNotFoundMsg instid m.id) := by
  have hnotok : ∀ out, run env ≠ Except.ok out := by
    intro out hrun
    obtain ⟨-, -, il', ml', sl, hi', hm', -, hpm, -⟩ := run_ok_elim env out hrun
    rw [hinst] at hi'
    rw [hmach] at hm'
    injection hi' with hi'
    injection hm' with hm'
    subst hi'
    subst hm'
    have hmem : (m.id, m) ∈ buildMachineIndex ml := by
      rw [buildMachineIndex_eq ml hnodup]
      exact List.mem_map_of_mem (fun x => (x.id, x)) hm
    obtain ⟨e, he⟩ := processMachinesAux_error_of_absent (buildInstanceIndex il)
      (buildMachineIndex ml) [] m.id m instid hmem hfound habsent
    rw [processMachines] at hpm
    rw [hpm] at he
    exact absurd he (by simp)
  refine ⟨hnotok, ?_, ?_⟩
  · cases hout : run env with
    | error e => exact ⟨e, rfl⟩
    | ok out => exact absurd hout (hnotok out)
  · simp [processMachines, processMachinesAux, hfound, habsent]

/-- Witness for C3: a one-machine store whose recorded instance id is
unknown to the provider. -/
theorem C3_inconsistency_fatal_witness :
    (∀ out, run (envWith [ghostMachine]) ≠ Except.ok out) ∧
    (∃ e, run (envWith [ghostMachine]) = Except.error e) ∧
    processMachines [(0, ghostMachine)] (buildInstanceIndex []) =
      Except.error (instNotFoundMsg "i-gone" 0) :=
  C3_inconsistency_fatal (envWith [ghostMachine]) [] [ghostMachine] ghostMachine
    "i-gone" rfl rfl (by simp) (by simp) rfl rfl

/-- C4: a machine whose instance-id read signals "not found" contributes
exactly the single-key pending entry to any successful snapshot, and its
processing in isolation succeeds (it is not treated as an error). -/
theorem C4_pending_entry (env : Env) (ml : List Machine) (m : Machine) (out : Result)
    (hmach : env.allMachines = Except.ok ml)
    (hnodup : (ml.map Machine.id).Nodup) (hm : m ∈ ml)
    (hnf : m.instanceId = .notFound)
    (hrun : run env = Except.ok out) :
    mapGet out.machines m.id = some [("instance-id", Value.str "pending")] ∧
    ∀ instances, processMachines [(m.id, m)] instances =
      Except.ok [(m.id, [("instance-id", Value.str "pending")])] := by
  constructor
  · obtain ⟨-, -, il, ml', sl, hi', hm', -, hpm, -⟩ := run_ok_elim env out hrun
    rw [hmach] at hm'
    injection hm' with hm'
    subst hm'
    have hmem : (m.id, m) ∈ buildMachineIndex ml := by
      rw [buildMachineIndex_eq ml hnodup]
      exact List.mem_map_of_mem (fun x => (x.id, x)) hm
    have hids : ((buildMachineIndex ml).map (fun p => p.2.id)).Nodup := by
      rw [buildMachineIndex_eq ml hnodup, List.map_map]
      exact hnodup
    exact processMachinesAux_pending (buildInstanceIndex il) (buildMachineIndex ml)
      [] out.machines m.id m hmem hnf hids hpm
  · intro instances
    simp [processMachines, processMachinesAux, hnf, mapUpd]

/-- Witness for C4: a store holding one unprovisioned machine. -/
theorem C4_pending_entry_witness :
    mapGet (Result.machines ⟨[(0, [("instance-id", Value.str "pending")])], []⟩) 0 =
      some [("instance-id", Value.str "pending")] ∧
    processMachines [(0, pendingMachine)] [] =
      Except.ok [(0, [("instance-id", Value.str "pending")])] := by
  have h := C4_pending_entry (envWith [pendingMachine]) [pendingMachine] pendingMachine
    ⟨[(0, [("instance-id", Value.str "pending")])], []⟩
    rfl (by simp) (by simp) rfl rfl
  exact ⟨h.1, h.2 []⟩

/-- C7: the run is fail-fast — each collaborator failure, in pipeline
order, is returned as the run's error, and a successful run implies every
stage succeeded, so no partial snapshot is ever observable. -/
theorem C7_fail_fast (env : Env) :
    (∀ e, env.conn = Except.error e → run env = Except.error e) ∧
    (∀ e, env.conn = Except.ok () → env.allInstances = Except.error e →
      run env = Except.error e) ∧
    (∀ e il, env.conn = Except.ok () → env.allInstances = Except.ok il →
      env.state = Except.error e → run env = Except.error e) ∧
    (∀ e il, env.conn = Except.ok () → env.allInstances = Except.ok il →
      env.state = Except.ok () → env.allMachines = Except.error e →
      run env = Except.error e) ∧
    (∀ e il ml, env.conn = Except.ok () → env.allInstances = Except.ok il →
      env.state = Except.ok () → env.allMachines = Except.ok ml →
      env.allServices = Except.error e → run env = Except.error e) ∧
    (∀ e il ml sl, env.conn = Except.ok () → env.allInstances = Except.ok il →
      env.state = Except.ok () → env.allMachines = Except.ok ml →
      env.allServices = Except.ok sl →
      processMachines (buildMachineIndex ml) (buildInstanceIndex il) = Except.error e →
      run env = Except.error e) ∧
    (∀ e il ml sl ms, env.conn = Except.ok () → env.allInstances = Except.ok il →
      env.state = Except.ok () → env.allMachines = Except.ok ml →
      env.allServices = Except.ok sl →
      processMachines (buildMachineIndex ml) (buildInstanceIndex il) = Except.ok ms →
      processServices (buildServiceIndex sl) = Except.error e →
      run env = Except.error e) ∧
    (∀ out, run env = Except.ok out →
      env.conn = Except.ok () ∧ env.state = Except.ok () ∧
      ∃ il ml sl, env.allInstances = Except.ok il ∧ env.allMachines = Except.ok ml ∧
        env.allServices = Except.ok sl ∧
        processMachines (buildMachineIndex ml) (buildInstanceIndex il) =
          Except.ok out.machines ∧
        processServices (buildServiceIndex sl) = Except.ok out.services) := by
  refine ⟨?_, ?_, ?_, ?_, ?_, ?_, ?_, fun out h => run_ok_elim env out h⟩
  · intro e hc
    simp [run, hc]
  · intro e hc hi
    simp [run, hc, fetchAllInstances, hi]
  · intro e il hc hi hs
    simp [run, hc, fetchAllInstances, hi, hs]
  · intro e il hc hi hs hm
    simp [run, hc, fetchAllInstances, hi, hs, fetchAllMachines, hm]
  · intro e il ml hc hi hs hm hsv
    simp [run, hc, fetchAllInstances, hi, hs, fetchAllMachines, hm, fetchAllServices, hsv]
  · intro e il ml sl hc hi hs hm hsv hpm
    simp [run, hc, fetchAllInstances, hi, hs, fetchAllMachines, hm, fetchAllServices,
      hsv, hpm]
  · intro e il ml sl ms hc hi hs hm hsv hpm hps
    simp [run, hc, fetchAllInstances, hi, hs, fetchAllMachines, hm, fetchAllServices,
      hsv, hpm, hps]

/-- Witness for C7: a failing connection and a failing provider listing
each surface as the run's error. -/
theorem C7_fail_fast_witness :
    run envConnFail = Except.error "no conn" ∧
    run envProviderFail = Except.error "provider down" :=
  ⟨(C7_fail_fast envConnFail).1 "no conn" rfl,
    (C7_fail_fast envProviderFail).2.1 "provider down" rfl rfl⟩

/-- C8: the string-keyed representation re-keys the machines mapping by
the decimal string of each id and leaves every entry value and the
services mapping unchanged; id 7 becomes key "7" and decodes back to 7
with the identical entry. -/
theorem C8_jsonify_roundtrip (r : Result)
    (hnodup : (r.machines.map (fun p => Nat.repr p.1)).Nodup) :
    (jsonify r).services = r.services ∧
    (jsonify r).machines = r.machines.map (fun p => (Nat.repr p.1, p.2)) ∧
    Nat.repr 7 = "7" ∧ decodeDecimal "7" = some 7 ∧
    (∀ entry : Entry, (7, entry) ∈ r.machines → ("7", entry) ∈ (jsonify r).machines) := by
  have hmach : (jsonify r).machines = r.machines.map (fun p => (Nat.repr p.1, p.2)) := by
    have := foldl_mapUpd_eq_append (fun p : Nat × Entry => Nat.repr p.1) Prod.snd
      r.machines [] hnodup (by simp)
    simpa [jsonify] using this
  refine ⟨rfl, hmach, rfl, by decide, ?_⟩
  intro entry hmem
  rw [hmach]
  have := List.mem_map_of_mem (fun p : Nat × Entry => (Nat.repr p.1, p.2)) hmem
  simpa using this

/-- Witness for C8 on a one-machine snapshot with id 7. -/
theorem C8_jsonify_roundtrip_witness :
    (jsonify ⟨[(7, [("instance-id", Value.str "pending")])], []⟩).machines =
      [("7", [("instance-id", Value.str "pending")])] ∧
    decodeDecimal "7" = some 7 := by
  have h := C8_jsonify_roundtrip ⟨[(7, [("instance-id", Value.str "pending")])], []⟩
    (by simp)
  refine ⟨?_, h.2.2.2.1⟩
  rw [h.2.1]
  rfl

/-- C10: a successful run's machines mapping has pairwise-distinct keys
and binds a key exactly for each machine id of the store's listing — no
machine is dropped and no extra key appears. -/
theorem C10_machines_exactly_listing (env : Env) (ml : List Machine) (out : Result)
    (hmach : env.allMachines = Except.ok ml)
    (hnodup : (ml.map Machine.id).Nodup)
    (hrun : run env = Except.ok out) :
    (out.machines.map Prod.fst).Nodup ∧
    ∀ i : Nat, (mapGet out.machines i).isSome ↔ i ∈ ml.map Machine.id := by
  obtain ⟨-, -, il, ml', sl, hi', hm', -, hpm, -⟩ := run_ok_elim env out hrun
  rw [hmach] at hm'
  injection hm' with hm'
  subst hm'
  rw [processMachines] at hpm
  constructor
  · exact processMachinesAux_nodup_keys (buildInstanceIndex il) (buildMachineIndex ml)
      [] out.machines (by simp) hpm
  · intro i
    have h := processMachinesAux_isSome_iff (buildInstanceIndex il) (buildMachineIndex ml)
      [] out.machines hpm i
    rw [h]
    rw [buildMachineIndex_eq ml hnodup, List.map_map]
    simp [mapGet]

/-- Witness for C10 on a store with one unprovisioned machine. -/
theorem C10_machines_exactly_listing_witness :
    ((Result.machines ⟨[(0, [("instance-id", Value.str "pending")])], []⟩).map
      Prod.fst).Nodup ∧
    ((mapGet (Result.machines ⟨[(0, [("instance-id", Value.str "pending")])], []⟩)
        0).isSome ↔ 0 ∈ List.map Machine.id [pendingMachine]) := by
  have h := C10_machines_exactly_listing (envWith [pendingMachine]) [pendingMachine]
    ⟨[(0, [("instance-id", Value.str "pending")])], []⟩
    rfl (by simp) rfl
  exact ⟨h.1, h.2 0⟩

end JujuStatus
